import Mathlib

/-!
Shallow embedding of the batch transaction orchestrator of the Dice
stress-grid frontend (`packages/nextjs/app/grid/page.tsx`, second
version of the component, lines 519-1326) together with the on-chain
`DiceGame` contract appended to that file (lines 1328-1373).

Network primitives (wallet submission, receipt queries, event decoding)
are opaque capabilities in the source; they are modelled by an oracle
record `WorkerEnv` whose fields give the observable outcome of each
call.  Clock reads (`nowMs()`) are likewise oracle values.
-/

/-- The phases of `TileStatus` (page.tsx lines 536-547).  The variants
`preparing` and `estimating-gas` are declared in the source type even
though `runOne` never writes them. -/
inductive Phase
  | idle
  | queued
  | preparing
  | gettingGas
  | estimatingGas
  | buildingTx
  | waitingApproval
  | submitting
  | sent
  | mined
  | failed
deriving DecidableEq, Repr

/-- `TileStatus` (page.tsx lines 536-547): a closed tagged union with the
payload carried by each variant. -/
inductive TileStatus
  | idle
  | queued
  | preparing (startedAt : Nat)
  | gettingGas (startedAt : Nat)
  | estimatingGas (startedAt : Nat)
  | buildingTx (startedAt : Nat)
  | waitingApproval (startedAt : Nat)
  | submitting (startedAt : Nat)
  | sent (startedAt : Nat) (txHash : String)
  | mined (latencyMs : Nat) (rolled : String) (rollDecimal : Int) (win : Bool) (txHash : String)
  | failed (error : String)
deriving DecidableEq, Repr

/-- The phase tag of a status. -/
def phaseOf : TileStatus → Phase
  | .idle => .idle
  | .queued => .queued
  | .preparing _ => .preparing
  | .gettingGas _ => .gettingGas
  | .estimatingGas _ => .estimatingGas
  | .buildingTx _ => .buildingTx
  | .waitingApproval _ => .waitingApproval
  | .submitting _ => .submitting
  | .sent _ _ => .sent
  | .mined _ _ _ _ _ => .mined
  | .failed _ => .failed

/-- `Tile` (page.tsx lines 549-552). -/
structure Tile where
  id : Nat
  status : TileStatus
deriving DecidableEq, Repr

def isIdle : TileStatus → Bool
  | .idle => true
  | _ => false

def isMinedStatus : TileStatus → Bool
  | .mined _ _ _ _ _ => true
  | _ => false

/-- A status is terminal when it is `mined` or `failed`. -/
def isTerminal : TileStatus → Bool
  | .mined _ _ _ _ _ => true
  | .failed _ => true
  | _ => false

/-- `updateTile` (page.tsx lines 660-662): replace the status of the tile
with the given id, leaving every other tile untouched. -/
def updateTile (tiles : List Tile) (id : Nat) (status : TileStatus) : List Tile :=
  tiles.map (fun t => if t.id = id then { t with status := status } else t)

/-! ### String containment (JavaScript `String.prototype.includes`) -/

/-- Char-list version of `startsWith`, used to model JS substring search. -/
def charsStartWith : List Char → List Char → Bool
  | [], _ => true
  | _ :: _, [] => false
  | a :: as, b :: bs => a = b && charsStartWith as bs

/-- Char-list containment: `pat` occurs somewhere in the list. -/
def charsContain (pat : List Char) : List Char → Bool
  | [] => pat.isEmpty
  | c :: cs => charsStartWith pat (c :: cs) || charsContain pat cs

/-- JS `s.includes(pat)` as used by the nonce-error check
(page.tsx line 821). -/
def includesStr (s pat : String) : Bool :=
  charsContain pat.toList s.toList

/-! ### Gas quotes -/

/-- The cached gas estimate record (page.tsx lines 580-584), modelled in
wei as naturals. -/
structure GasQuote where
  gas : Nat
  gasPrice : Nat
deriving DecidableEq, Repr

/-- The static gas values installed once an address is known
(page.tsx lines 645-650): gas 180000, gasPrice `parseEther "0.000000150"`
= 150000000000 wei. -/
def staticGasEstimate : GasQuote :=
  { gas := 180000, gasPrice := 150000000000 }

/-- `getCachedGasEstimate` (page.tsx lines 667-681): return the cache when
present, otherwise the emergency fallback quote (gas 250000, gasPrice
`parseEther "0.000000300"` = 300000000000 wei). -/
def getCachedGasEstimate (cached : Option GasQuote) : GasQuote :=
  match cached with
  | some g => g
  | none => { gas := 250000, gasPrice := 300000000000 }

/-- `parseEther "0.002"`, the stake sent with every roll (`ROLL_ETH_VALUE`,
page.tsx line 567), in wei. -/
def rollValueWei : Nat := 2000000000000000

/-! ### The transaction worker `runOne` -/

/-- One `writeDiceGameAsync` invocation as issued by `runOne`
(page.tsx lines 712-719 and 830-836): value, gas limit, gas price,
legacy transaction type, and the optional explicit nonce. -/
structure SubmitCall where
  valueWei : Nat
  gas : Nat
  gasPrice : Nat
  legacy : Bool
  nonce : Option Nat
deriving DecidableEq, Repr

/-- Oracle for the external effects of one worker run.  `Except` values
give the outcome of the two possible `writeDiceGameAsync` calls (error
message of the thrown exception, or the returned transaction hash);
`receiptFoundAt` is the earliest polling attempt (1-based) at which
`getTransactionReceipt` returns a receipt, `none` if it never does;
`decodedRoll` is the value of the `Roll` event when one decodes from the
receipt logs, `none` when no `Roll` event is found or the contract
config/ABI for the chain is absent.  The `Nat` fields are `nowMs()`
clock reads. -/
structure WorkerEnv where
  startedAt : Nat
  cachedGas : Option GasQuote
  submit : Except String String
  publicClientAvailable : Bool
  blockchainStart : Nat
  receiptFoundAt : Option Nat
  decodedRoll : Option Nat
  minedAt : Nat
  backoffRand : ℚ
  retrySubmit : Except String String
  retryStart : Nat
  retryEnd : Nat

/-- `maxAttempts` of the receipt-polling loop (page.tsx line 738). -/
def maxAttempts : Nat := 60

/-- Polling interval in milliseconds (page.tsx line 755). -/
def pollIntervalMs : Nat := 500

/-- Whether a receipt is available at the given attempt. -/
def receiptAvailable (avail : Option Nat) (attempt : Nat) : Bool :=
  match avail with
  | some k => k ≤ attempt
  | none => false

/-- The polling loop body (page.tsx lines 740-756): at each attempt, query
the receipt and break if found, otherwise wait 500 ms and try again.
Returns (attempt at which a receipt was found, attempts performed, total
milliseconds waited). -/
def pollAux (avail : Option Nat) : Nat → Nat → Option Nat × Nat × Nat
  | _, 0 => (none, 0, 0)
  | attempt, fuel + 1 =>
    if receiptAvailable avail attempt then
      (some attempt, 1, 0)
    else
      let r := pollAux avail (attempt + 1) fuel
      (r.1, r.2.1 + 1, pollIntervalMs + r.2.2)

/-- The full receipt-polling loop: attempts 1..60. -/
def pollReceipt (avail : Option Nat) : Option Nat × Nat × Nat :=
  pollAux avail 1 maxAttempts

/-- The message of the timeout exception thrown when the polling budget is
exhausted (page.tsx line 759). -/
def timeoutMsg (txHash : String) : String :=
  "Transaction " ++ txHash ++ " not mined after " ++ toString maxAttempts ++ " attempts"

/-- The result of one worker run: the sequence of statuses written to the
tile (in order), the submission calls issued, the polling statistics and
the retry backoff wait (ms) when the retry path was taken. -/
structure RunOneResult where
  updates : List TileStatus
  submits : List SubmitCall
  pollAttempts : Nat
  pollWaitMs : Nat
  retryBackoffMs : Option ℚ

/-- The last status written (every path writes at least one). -/
def lastStatus (l : List TileStatus) : TileStatus :=
  l.foldl (fun _ u => u) .idle

def RunOneResult.final (r : RunOneResult) : TileStatus :=
  lastStatus r.updates

/-- Uppercase hexadecimal rendering of the decoded roll
(`rollDecimal.toString(16).toUpperCase()`, page.tsx line 788). -/
def hexUpper (n : Nat) : String :=
  ((Nat.toDigits 16 n).map Char.toUpper).asString

/-- The win rule applied by the frontend to a decoded roll
(page.tsx line 789): `const win = rollDecimal <= 5`. -/
def clientWin (rollDecimal : Nat) : Bool :=
  decide (rollDecimal ≤ 5)

/-- The catch block of `runOne` (page.tsx lines 817-862): on an error whose
message contains "nonce too low" or "nonce", wait a randomized
200-500 ms backoff and retry once without an explicit nonce; a retry
failure or any other error marks the tile `failed`. -/
def runOneCatch (env : WorkerEnv) (prev : List TileStatus) (calls : List SubmitCall)
    (pollAttempts pollWaitMs : Nat) (m : String) : RunOneResult :=
  if includesStr m "nonce too low" || includesStr m "nonce" then
    let g := getCachedGasEstimate env.cachedGas
    let backoff : ℚ := 200 + 300 * env.backoffRand
    let retryCall : SubmitCall :=
      { valueWei := rollValueWei, gas := g.gas, gasPrice := g.gasPrice, legacy := true, nonce := none }
    match env.retrySubmit with
    | .ok h2 =>
      let h2Tx := if h2 == "" then "unknown" else h2
      { updates := prev ++
          [.sent env.retryStart h2Tx,
           .mined (env.retryEnd - env.retryStart + 500) "R" (-1) false h2Tx]
        submits := calls ++ [retryCall]
        pollAttempts := pollAttempts
        pollWaitMs := pollWaitMs
        retryBackoffMs := some backoff }
    | .error m2 =>
      { updates := prev ++ [.failed ("Retry failed: " ++ m2)]
        submits := calls ++ [retryCall]
        pollAttempts := pollAttempts
        pollWaitMs := pollWaitMs
        retryBackoffMs := some backoff }
  else
    { updates := prev ++ [.failed m]
      submits := calls
      pollAttempts := pollAttempts
      pollWaitMs := pollWaitMs
      retryBackoffMs := none }

/-- The transaction worker `runOne` (page.tsx lines 684-863).  Statuses are
written in source order: `queued`, `getting-gas`, `building-tx`,
`waiting-approval`, `submitting`, then `sent` once a hash is returned,
then the polling loop, event decoding and the `mined` terminal update
(or the catch block above on any exception). -/
def runOne (env : WorkerEnv) (explicitNonce : Option Nat) : RunOneResult :=
  let g := getCachedGasEstimate env.cachedGas
  let pre : List TileStatus :=
    [.queued, .gettingGas env.startedAt, .buildingTx env.startedAt,
     .waitingApproval env.startedAt, .submitting env.startedAt]
  let call1 : SubmitCall :=
    { valueWei := rollValueWei, gas := g.gas, gasPrice := g.gasPrice
      legacy := true, nonce := explicitNonce }
  match env.submit with
  | .error m => runOneCatch env pre [call1] 0 0 m
  | .ok h =>
    let hTx := if h == "" then "unknown" else h
    let afterSent := pre ++ [.sent env.blockchainStart hTx]
    if !env.publicClientAvailable || h == "" then
      runOneCatch env afterSent [call1] 0 0 "Missing publicClient or txHash"
    else
      let poll := pollReceipt env.receiptFoundAt
      match poll.1 with
      | some _ =>
        let latency := env.minedAt - env.blockchainStart
        match env.decodedRoll with
        | some r =>
          { updates := afterSent ++
              [.mined latency (hexUpper r) (Int.ofNat r) (clientWin r) hTx]
            submits := [call1]
            pollAttempts := poll.2.1
            pollWaitMs := poll.2.2
            retryBackoffMs := none }
        | none =>
          { updates := afterSent ++ [.mined latency "?" 0 false hTx]
            submits := [call1]
            pollAttempts := poll.2.1
            pollWaitMs := poll.2.2
            retryBackoffMs := none }
      | none =>
        runOneCatch env afterSent [call1] poll.2.1 poll.2.2 (timeoutMsg h)

/-! ### The batch scheduler `runAll` -/

/-- The component state touched by `runAll` and `resetTiles`: the tile
list and the `running` flag. -/
structure GridState where
  tiles : List Tile
  running : Bool
deriving DecidableEq, Repr

/-- Environment of one `runAll` invocation: the burst size and mode flags,
whether `publicClient` and `userAddress` are available, the outcome of
`getTransactionCount`, and the per-tile worker oracle. -/
structure RunAllEnv where
  burstSize : Nat
  isSequential : Bool
  haveClientAndAddress : Bool
  getTransactionCount : Except String Nat
  worker : Nat → WorkerEnv

/-- Record of one worker launch performed by `runAll`: the tile id, the
explicit nonce passed to `runOne`, and whether the returned promise is
awaited before `runAll` resolves.  In the no-client fallback
(page.tsx lines 991-998) `runOne(id)` is invoked without `await`, so
`awaited` is false there. -/
structure Launch where
  tileId : Nat
  explicitNonce : Option Nat
  awaited : Bool
deriving DecidableEq, Repr

/-- Apply the terminal status of an awaited worker run to its tile. -/
def applyFinal (tiles : List Tile) (env : RunAllEnv) (id : Nat) (nonce : Option Nat) : List Tile :=
  updateTile tiles id (runOne (env.worker id) nonce).final

/-- Status visible on a detached (un-awaited) worker's tile at the moment
`runAll` resolves, when the worker has applied its first `k` status
updates.  The first update (`queued`) runs synchronously before control
returns to `runAll`, so at least one update is always applied. -/
def statusAfter (us : List TileStatus) (k : Nat) : TileStatus :=
  lastStatus (us.take (max k 1))

/-- The per-queue processing of `runAll` (page.tsx lines 896-956 and
972-1032, two textually identical copies): sequential mode awaits each
worker in turn; batch mode reads `getTransactionCount` and launches the
i-th worker with nonce `startNonce + i`, awaiting all of them; if the
count read throws, it falls back to awaited sequential runs without
nonces; if `publicClient`/`userAddress` are unavailable it launches the
workers without awaiting them (`prog id` is the number of status
updates worker `id` has applied when `runAll` resolves). -/
def processQueue (env : RunAllEnv) (prog : Nat → Nat) (tiles : List Tile)
    (queue : List Nat) : List Tile × List Launch :=
  if env.isSequential then
    (queue.foldl (fun ts id => applyFinal ts env id none) tiles,
     queue.map (fun id => { tileId := id, explicitNonce := none, awaited := true }))
  else if env.haveClientAndAddress then
    match env.getTransactionCount with
    | .ok startNonce =>
      ((List.range queue.length).foldl
         (fun ts i => applyFinal ts env (queue.getD i 0) (some (startNonce + i))) tiles,
       (List.range queue.length).map
         (fun i => { tileId := queue.getD i 0, explicitNonce := some (startNonce + i), awaited := true }))
    | .error _ =>
      (queue.foldl (fun ts id => applyFinal ts env id none) tiles,
       queue.map (fun id => { tileId := id, explicitNonce := none, awaited := true }))
  else
    (queue.foldl
       (fun ts id => updateTile ts id (statusAfter (runOne (env.worker id) none).updates (prog id)))
       tiles,
     queue.map (fun id => { tileId := id, explicitNonce := none, awaited := false }))

/-- Result of a `runAll` invocation: the state when its promise resolves,
the launches performed, and whether the implicit all-mined auto-reset
branch executed. -/
structure RunAllResult where
  state : GridState
  launches : List Launch
  autoReset : Bool

/-- The batch scheduler `runAll` (page.tsx lines 865-1037).  Reentrancy
guard first; then selection of up to `burstSize` idle tiles; when none
are idle but every tile is `mined` (and the grid is nonempty), all
tiles are reset to `idle` and a fresh queue of ids
`0..min(burstSize, tiles.length)-1` is processed; otherwise the idle
selection is processed.  The `running` flag is cleared before the
promise resolves on every non-guarded path. -/
def runAll (st : GridState) (env : RunAllEnv) (prog : Nat → Nat) : RunAllResult :=
  if st.running then
    { state := st, launches := [], autoReset := false }
  else
    let activeTiles := (st.tiles.filter (fun t => isIdle t.status)).take env.burstSize
    if activeTiles.isEmpty then
      let allMined := st.tiles.all (fun t => isMinedStatus t.status)
      if allMined && decide (0 < st.tiles.length) then
        let reset := st.tiles.map (fun t => { t with status := TileStatus.idle })
        let queue := List.range (min env.burstSize st.tiles.length)
        let r := processQueue env prog reset queue
        { state := { tiles := r.1, running := false }, launches := r.2, autoReset := true }
      else
        { state := { tiles := st.tiles, running := false }, launches := [], autoReset := false }
    else
      let queue := activeTiles.map (·.id)
      let r := processQueue env prog st.tiles queue
      { state := { tiles := r.1, running := false }, launches := r.2, autoReset := false }

/-- `resetTiles` (page.tsx lines 1063-1068): set every tile back to `idle`
and clear the `running` flag. -/
def resetTiles (st : GridState) : GridState :=
  { tiles := st.tiles.map (fun t => { t with status := TileStatus.idle }), running := false }

/-! ### TileCard rendering (page.tsx lines 1199-1314) -/

/-- `isWaitingForRealResult` (page.tsx line 1226): the tile shows the
"confirmed, pending result" treatment only when it is `mined` with
`rolled === "?"` and `rollDecimal === -1`. -/
def isWaitingForRealResult (st : TileStatus) : Bool :=
  match st with
  | .mined _ rolled rollDecimal _ _ => rolled == "?" && rollDecimal == -1
  | _ => false

/-- The indicator line rendered for a mined tile (page.tsx lines 1282-1285):
the pending-result text, or win/lose. -/
def minedIndicatorText (st : TileStatus) : Option String :=
  match st with
  | .mined _ _ _ win _ =>
    some (if isWaitingForRealResult st then "Confirmé - En attente du résultat..."
          else if win then "Gagné" else "Perdu")
  | _ => none

/-! ### The DiceGame contract (page.tsx lines 1328-1373) -/

/-- `rollTheDice`'s roll computation: `(uint256(hash) % 6) + 1`, a value
in 1..6 (contract line 1352). -/
def contractRoll (hash : Nat) : Nat :=
  hash % 6 + 1

/-- The contract's win condition: "Only 3 is a winning number"
(contract lines 1360-1361). -/
def contractIsWin (roll : Nat) : Bool :=
  roll == 3

/-- The contract's payout: 6x the bet on a roll of 3, nothing otherwise
(contract lines 1361-1369). -/
def contractPayout (betWei roll : Nat) : Nat :=
  if roll == 3 then 6 * betWei else 0

/-! ### Concrete environments used as test inputs -/

/-- A worker whose submission, mining and decoding all succeed, with a
roll of 3. -/
def goodWorker : WorkerEnv :=
  { startedAt := 0
    cachedGas := some staticGasEstimate
    submit := .ok "0xAAA1"
    publicClientAvailable := true
    blockchainStart := 100
    receiptFoundAt := some 1
    decodedRoll := some 3
    minedAt := 600
    backoffRand := 0
    retrySubmit := .ok "0xBBB1"
    retryStart := 0
    retryEnd := 0 }

/-- A worker whose receipt mines but carries no decodable `Roll` event. -/
def undecodableWorker : WorkerEnv :=
  { goodWorker with submit := .ok "0xF00D", decodedRoll := none }

/-- A worker whose receipt decodes to a roll of 1. -/
def rollOneWorker : WorkerEnv :=
  { goodWorker with submit := .ok "0xAA11", decodedRoll := some 1 }

/-- A worker whose first submission fails with a nonce conflict and whose
retry fails as well. -/
def retryFailWorker : WorkerEnv :=
  { goodWorker with
      submit := .error "nonce too low: expected 5"
      backoffRand := 1/2
      retrySubmit := .error "still bad" }

/-- A worker whose transaction is never mined within the polling budget. -/
def timeoutWorker : WorkerEnv :=
  { goodWorker with submit := .ok "0xCC", receiptFoundAt := none }

/-- A single idle tile, not running. -/
def oneIdleState : GridState :=
  { tiles := [{ id := 0, status := .idle }], running := false }

/-- Three idle tiles, not running. -/
def threeIdleState : GridState :=
  { tiles := [{ id := 0, status := .idle }, { id := 1, status := .idle },
              { id := 2, status := .idle }], running := false }

/-- The mined status produced by `goodWorker` with the receipt decoded. -/
def minedThree : TileStatus := .mined 500 "3" 3 true "0xAAA1"

/-- Two tiles mined, one idle: the state left after a partial batch. -/
def partialMinedState : GridState :=
  { tiles := [{ id := 0, status := minedThree }, { id := 1, status := minedThree },
              { id := 2, status := .idle }], running := false }

/-- Batch-mode environment where `publicClient`/`userAddress` are
unavailable, forcing the no-nonce fallback of `runAll`. -/
def noClientEnv : RunAllEnv :=
  { burstSize := 1, isSequential := false, haveClientAndAddress := false
    getTransactionCount := .error "no client", worker := fun _ => goodWorker }

/-- Batch-mode environment with the nonce read available, base nonce 42. -/
def batchEnv42 : RunAllEnv :=
  { burstSize := 3, isSequential := false, haveClientAndAddress := true
    getTransactionCount := .ok 42, worker := fun _ => goodWorker }

/-- Batch-mode environment with burst size 2 and base nonce 7. -/
def batchEnv7 : RunAllEnv :=
  { burstSize := 2, isSequential := false, haveClientAndAddress := true
    getTransactionCount := .ok 7, worker := fun _ => goodWorker }

/-- A batch in flight: one tile submitting, `running` set. -/
def inFlightState : GridState :=
  { tiles := [{ id := 0, status := .submitting 5 }], running := true }

/-- A mixed grid with `running` still set (workers possibly in flight). -/
def mixedRunningState : GridState :=
  { tiles := [{ id := 0, status := minedThree }, { id := 1, status := .failed "boom" }],
    running := true }

/-- Two mined tiles with positional ids, not running. -/
def twoMinedState : GridState :=
  { tiles := [{ id := 0, status := minedThree }, { id := 1, status := minedThree }],
    running := false }

/-! ### Supporting lemmas -/

theorem lastStatus_append (l : List TileStatus) (x : TileStatus) :
    lastStatus (l ++ [x]) = x := by
  simp [lastStatus, List.foldl_append]

theorem pollAux_attempts_le (avail : Option Nat) :
    ∀ (fuel attempt : Nat), (pollAux avail attempt fuel).2.1 ≤ fuel := by
  intro fuel
  induction fuel with
  | zero => intro a; simp [pollAux]
  | succ f ih =>
    intro a
    simp only [pollAux]
    split
    · simp
    · simpa using Nat.succ_le_succ (ih (a + 1))

theorem pollAux_wait_le (avail : Option Nat) :
    ∀ (fuel attempt : Nat), (pollAux avail attempt fuel).2.2 ≤ fuel * pollIntervalMs := by
  intro fuel
  induction fuel with
  | zero => intro a; simp [pollAux]
  | succ f ih =>
    intro a
    simp only [pollAux]
    split
    · simp
    · have := ih (a + 1)
      simp only [pollIntervalMs] at *
      omega

theorem pollAux_none_stats (avail : Option Nat) :
    ∀ (fuel attempt : Nat), (pollAux avail attempt fuel).1 = none →
      (pollAux avail attempt fuel).2.1 = fuel ∧
      (pollAux avail attempt fuel).2.2 = fuel * pollIntervalMs := by
  intro fuel
  induction fuel with
  | zero => intro a _; simp [pollAux]
  | succ f ih =>
    intro a h
    by_cases hav : receiptAvailable avail a = true
    · simp [pollAux, hav] at h
    · have h2 : (pollAux avail (a + 1) f).1 = none := by
        simpa [pollAux, hav] using h
      have h3 := ih (a + 1) h2
      simp only [pollAux, hav, if_false, Bool.false_eq_true, pollIntervalMs] at h3 ⊢
      omega

theorem pollAux_finds (k : Nat) :
    ∀ (fuel attempt : Nat), 0 < fuel → k < attempt + fuel →
      ((pollAux (some k) attempt fuel).1).isSome = true := by
  intro fuel
  induction fuel with
  | zero => intro a h; omega
  | succ f ih =>
    intro a _ hk
    simp only [pollAux]
    by_cases hav : receiptAvailable (some k) a = true
    · simp [hav]
    · have hka : ¬ k ≤ a := by simpa [receiptAvailable] using hav
      have hf : 0 < f := by omega
      simp only [hav, if_false]
      exact ih (a + 1) hf (by omega)

theorem charsStartWith_of_append :
    ∀ (p q l : List Char), charsStartWith (p ++ q) l = true → charsStartWith p l = true := by
  intro p
  induction p with
  | nil => intro q l _; simp [charsStartWith]
  | cons a as ih =>
    intro q l h
    cases l with
    | nil => simp [charsStartWith] at h
    | cons b bs =>
      simp only [List.cons_append, charsStartWith, Bool.and_eq_true] at h ⊢
      exact ⟨h.1, ih q bs h.2⟩

theorem charsContain_of_append (p q : List Char) :
    ∀ l, charsContain (p ++ q) l = true → charsContain p l = true := by
  intro l
  induction l with
  | nil =>
    simp only [charsContain, List.isEmpty_iff, List.append_eq_nil]
    intro h
    simp [h.1]
  | cons c cs ih =>
    simp only [charsContain, Bool.or_eq_true]
    rintro (h | h)
    · exact Or.inl (charsStartWith_of_append p q _ h)
    · exact Or.inr (ih h)

theorem includesStr_nonce_of_too_low (m : String) :
    includesStr m "nonce too low" = true → includesStr m "nonce" = true := by
  intro h
  have he : ("nonce too low").toList = ("nonce").toList ++ (" too low").toList := by decide
  unfold includesStr at h ⊢
  rw [he] at h
  exact charsContain_of_append _ _ _ h

theorem includesStr_too_low_false (m : String) (h : includesStr m "nonce" = false) :
    includesStr m "nonce too low" = false := by
  cases hb : includesStr m "nonce too low" with
  | false => rfl
  | true => rw [includesStr_nonce_of_too_low m hb] at h; cases h

theorem runOne_first_nonce (env : WorkerEnv) (n : Option Nat) :
    ((runOne env n).submits.head?).map SubmitCall.nonce = some n := by
  rcases hs : env.submit with m | h
  · rcases hr : env.retrySubmit with m2 | h2 <;>
      simp only [runOne, runOneCatch, hs, hr] <;> split <;> simp
  · rcases hp : (pollReceipt env.receiptFoundAt).1 with _ | a
    · rcases hr : env.retrySubmit with m2 | h2 <;>
        simp only [runOne, runOneCatch, hs, hp, hr] <;> (repeat' split) <;> simp
    · rcases hd : env.decodedRoll with _ | r <;>
        simp only [runOne, runOneCatch, hs, hp, hd] <;> (repeat' split) <;> simp

theorem processQueue_launches_length (env : RunAllEnv) (prog : Nat → Nat)
    (tiles : List Tile) (queue : List Nat) :
    (processQueue env prog tiles queue).2.length = queue.length := by
  unfold processQueue
  split
  · simp
  · split
    · split <;> simp
    · simp

theorem lastStatus_concat₂ (l : List TileStatus) (a b : TileStatus) :
    lastStatus (l ++ [a, b]) = b := by
  have h : l ++ [a, b] = (l ++ [a]) ++ [b] := by simp
  rw [h, lastStatus_append]

theorem range_getD {k i : Nat} (h : i < k) : (List.range k).getD i 0 = i := by
  rw [List.getD_eq_getElem?_getD, List.getElem?_range h]
  rfl

theorem updateTile_mapRange (nLen : Nat) (s : Nat → TileStatus) (id : Nat) (v : TileStatus) :
    updateTile ((List.range nLen).map (fun i => Tile.mk i (s i))) id v
      = (List.range nLen).map (fun i => Tile.mk i (if i = id then v else s i)) := by
  unfold updateTile
  rw [List.map_map]
  apply List.map_congr_left
  intro a _
  by_cases h : a = id <;> simp [h]

theorem foldl_applyFinal (env : RunAllEnv) (n0 nLen : Nat) :
    ∀ k, (List.range k).foldl (fun ts i => applyFinal ts env i (some (n0 + i)))
          ((List.range nLen).map (fun i => Tile.mk i TileStatus.idle))
        = (List.range nLen).map (fun i =>
            Tile.mk i (if i < k then (runOne (env.worker i) (some (n0 + i))).final
                       else TileStatus.idle)) := by
  intro k
  induction k with
  | zero => simp
  | succ k ih =>
    rw [List.range_succ, List.foldl_append, ih]
    simp only [List.foldl_cons, List.foldl_nil]
    unfold applyFinal
    rw [updateTile_mapRange]
    apply List.map_congr_left
    intro a _
    by_cases h1 : a = k
    · subst h1
      simp [Nat.lt_succ_self]
    · by_cases h2 : a < k
      · have h3 : a < k + 1 := by omega
        simp [h1, h2, h3]
      · have h3 : ¬ a < k + 1 := by omega
        simp [h1, h2, h3]

theorem reset_mapRange (tiles : List Tile)
    (hpos : tiles.map Tile.id = List.range tiles.length) :
    tiles.map (fun t => { t with status := TileStatus.idle })
      = (List.range tiles.length).map (fun i => Tile.mk i TileStatus.idle) := by
  have h1 : tiles.map (fun t => { t with status := TileStatus.idle })
      = (tiles.map Tile.id).map (fun i => Tile.mk i TileStatus.idle) := by
    rw [List.map_map]
    apply List.map_congr_left
    intro t _
    rfl
  rw [h1, hpos]

/-! ### Claim theorems -/

/-- Claim C1 (code bug): the `isWin` flag recorded on a mined tile does
not follow the contract's rule.  The `DiceGame` contract pays out only
on a roll of 3, but `runOne` records `win = rollDecimal <= 5`
(page.tsx line 789): a decoded roll of 1 is recorded as a win, and the
decoded rolls [3,1,3,6,2] yield isWin [true,true,true,false,true]
instead of the claimed [true,false,true,false,false]. -/
theorem c1_win_rule_code_bug :
    clientWin 1 = true ∧
    contractIsWin 1 = false ∧
    contractPayout rollValueWei 1 = 0 ∧
    [3, 1, 3, 6, 2].map clientWin = [true, true, true, false, true] ∧
    [3, 1, 3, 6, 2].map contractIsWin = [true, false, true, false, false] ∧
    (runOne rollOneWorker none).final = .mined 500 "1" 1 true "0xAA11" ∧
    (List.range 6).map contractRoll = [1, 2, 3, 4, 5, 6] := by
  decide

/-- Claim C2 (code bug): in the fallback taken when the nonce read is
unavailable (no `publicClient`/`userAddress`, page.tsx lines 991-998),
`runAll` invokes `runOne(id)` without `await`, clears `running` and
resolves; a selected tile can still be in the non-terminal `queued`
state at that moment.  By contrast, the batch path with the nonce read
available awaits all workers and leaves every selected tile terminal. -/
theorem c2_fallback_not_awaited_code_bug :
    (runAll oneIdleState noClientEnv (fun _ => 1)).state.running = false ∧
    (runAll oneIdleState noClientEnv (fun _ => 1)).launches =
      [{ tileId := 0, explicitNonce := none, awaited := false }] ∧
    (runAll oneIdleState noClientEnv (fun _ => 1)).state.tiles =
      [{ id := 0, status := .queued }] ∧
    isTerminal TileStatus.queued = false ∧
    (runAll oneIdleState batchEnv42 (fun _ => 1)).state.tiles.all
      (fun t => isTerminal t.status) = true := by
  decide

/-- Claim C3 (code bug): a worker whose transaction mines but whose
receipt carries no decodable `Roll` event does transition to `mined`
(never `failed`) with the sentinel outcome — but the sentinel it writes
is `rolled = "?", rollDecimal = 0` (page.tsx lines 806-815) while the
TileCard check for the "confirmed, pending result" indicator requires
`rollDecimal === -1` (line 1226).  The sentinel-mined tile therefore
renders the lose indicator "Perdu" instead of the pending-result
indicator, which only an explicit `-1` would trigger. -/
theorem c3_pending_indicator_code_bug :
    (runOne undecodableWorker none).final = .mined 500 "?" 0 false "0xF00D" ∧
    isTerminal (runOne undecodableWorker none).final = true ∧
    phaseOf (runOne undecodableWorker none).final = .mined ∧
    isWaitingForRealResult (runOne undecodableWorker none).final = false ∧
    minedIndicatorText (runOne undecodableWorker none).final = some "Perdu" ∧
    isWaitingForRealResult (.mined 500 "?" (-1) false "0xF00D") = true ∧
    minedIndicatorText (.mined 500 "?" (-1) false "0xF00D") =
      some "Confirmé - En attente du résultat..." := by
  decide

/-- Claim C4, counterexample: a successful non-retry run writes the
status sequence `queued, getting-gas, building-tx, waiting-approval,
submitting, sent, mined` — the claimed sequence additionally containing
`preparing` is never produced, since `runOne` never writes a
`preparing` status. -/
theorem c4_missing_preparing_counterexample :
    (runOne goodWorker none).updates.map phaseOf =
      [.queued, .gettingGas, .buildingTx, .waitingApproval, .submitting, .sent, .mined] ∧
    (runOne goodWorker none).updates.map phaseOf ≠
      [.queued, .preparing, .gettingGas, .buildingTx, .waitingApproval,
       .submitting, .sent, .mined] ∧
    (runOne goodWorker none).retryBackoffMs = none ∧
    phaseOf (runOne goodWorker none).final = .mined := by
  decide

/-- Claim C4, amended: for every worker run that mines without a retry
(submission succeeds, the client is available and a receipt is found
within the polling budget), the status updates are exactly
`queued, getting-gas, building-tx, waiting-approval, submitting, sent,
mined` in that order, with no status revisited and `failed` never
entered; no retry backoff is taken. -/
theorem c4_status_sequence (env : WorkerEnv) (nonce : Option Nat) (h : String) (k : Nat)
    (h1 : env.submit = .ok h) (h2 : h ≠ "") (h3 : env.publicClientAvailable = true)
    (h4 : env.receiptFoundAt = some k) (h5 : k ≤ maxAttempts) :
    (runOne env nonce).updates.map phaseOf =
      [.queued, .gettingGas, .buildingTx, .waitingApproval, .submitting, .sent, .mined] ∧
    ((runOne env nonce).updates.map phaseOf).Nodup ∧
    Phase.failed ∉ (runOne env nonce).updates.map phaseOf ∧
    (runOne env nonce).retryBackoffMs = none := by
  have hfound : ((pollReceipt env.receiptFoundAt).1).isSome = true := by
    rw [h4]
    refine pollAux_finds k maxAttempts 1 (by decide) ?_
    simp only [maxAttempts] at h5 ⊢
    omega
  obtain ⟨a, ha⟩ := Option.isSome_iff_exists.mp hfound
  have hbeq : (h == "") = false := beq_eq_false_iff_ne.mpr h2
  have hu : (runOne env nonce).updates.map phaseOf =
      [.queued, .gettingGas, .buildingTx, .waitingApproval, .submitting, .sent, .mined] := by
    rcases hd : env.decodedRoll with _ | r <;>
      simp [runOne, h1, h3, hbeq, ha, hd, phaseOf]
  refine ⟨hu, ?_, ?_, ?_⟩
  · rw [hu]; decide
  · rw [hu]; decide
  · rcases hd : env.decodedRoll with _ | r <;>
      simp [runOne, h1, h3, hbeq, ha, hd]

/-- Witness for the amended C4 theorem at a concrete environment. -/
theorem c4_status_sequence_witness :
    (runOne goodWorker none).updates.map phaseOf =
      [.queued, .gettingGas, .buildingTx, .waitingApproval, .submitting, .sent, .mined] ∧
    ((runOne goodWorker none).updates.map phaseOf).Nodup ∧
    Phase.failed ∉ (runOne goodWorker none).updates.map phaseOf ∧
    (runOne goodWorker none).retryBackoffMs = none :=
  c4_status_sequence goodWorker none "0xAAA1" 1 rfl (by decide) rfl rfl (by decide)

/-- Claim C9: invoking `runAll` while `running` is set is a no-op — the
guard (page.tsx lines 869-872) returns before launching any worker, and
the state is unchanged. -/
theorem c9_reentrancy_guard (st : GridState) (env : RunAllEnv) (prog : Nat → Nat)
    (h : st.running = true) :
    (runAll st env prog).state = st ∧ (runAll st env prog).launches = [] := by
  simp [runAll, h]

/-- Witness for the reentrancy guard at a concrete in-flight state. -/
theorem c9_reentrancy_guard_witness :
    (runAll inFlightState noClientEnv (fun _ => 1)).state = inFlightState ∧
    (runAll inFlightState noClientEnv (fun _ => 1)).launches = [] :=
  c9_reentrancy_guard inFlightState noClientEnv (fun _ => 1) rfl

/-- Claim C10: `resetTiles` (page.tsx lines 1063-1068) sets every tile to
`idle` while preserving tile ids, order and count, and clears the
`running` flag — so a subsequent `runAll` is not blocked by the
reentrancy guard and launches a fresh batch. -/
theorem c10_reset_tiles (st : GridState) (env : RunAllEnv) (prog : Nat → Nat) :
    (resetTiles st).tiles.map Tile.id = st.tiles.map Tile.id ∧
    (resetTiles st).tiles.length = st.tiles.length ∧
    (∀ t ∈ (resetTiles st).tiles, t.status = TileStatus.idle) ∧
    (resetTiles st).running = false ∧
    (st.tiles ≠ [] → 1 ≤ env.burstSize →
      (runAll (resetTiles st) env prog).launches ≠ []) := by
  refine ⟨?_, ?_, ?_, rfl, ?_⟩
  · simp [resetTiles, List.map_map]
  · simp [resetTiles]
  · intro t ht
    simp only [resetTiles, List.mem_map] at ht
    obtain ⟨a, _, rfl⟩ := ht
    rfl
  · intro hne hb
    have htiles : (resetTiles st).tiles ≠ [] := by
      simp [resetTiles, hne]
    have hall : ∀ t ∈ (resetTiles st).tiles, isIdle t.status = true := by
      intro t ht
      simp only [resetTiles, List.mem_map] at ht
      obtain ⟨a, _, rfl⟩ := ht
      rfl
    have hfilter : (resetTiles st).tiles.filter (fun t => isIdle t.status)
        = (resetTiles st).tiles := List.filter_eq_self.mpr hall
    have hactive : ((resetTiles st).tiles.filter (fun t => isIdle t.status)).take env.burstSize
        ≠ [] := by
      rw [hfilter]
      rw [Ne, List.take_eq_nil_iff]
      rintro (h0 | h0)
      · omega
      · exact htiles h0
    have hrun : (resetTiles st).running = false := rfl
    have hempty : (((resetTiles st).tiles.filter (fun t => isIdle t.status)).take
        env.burstSize).isEmpty = false := by
      rw [Bool.eq_false_iff, Ne, List.isEmpty_iff]
      exact hactive
    intro hlaunch
    have := processQueue_launches_length env prog (resetTiles st).tiles
      ((((resetTiles st).tiles.filter (fun t => isIdle t.status)).take env.burstSize).map Tile.id)
    rw [runAll] at hlaunch
    simp only [hrun, Bool.false_eq_true, if_false, hempty] at hlaunch
    rw [hlaunch] at this
    simp only [List.length_nil, List.length_map] at this
    have hlen : (((resetTiles st).tiles.filter (fun t => isIdle t.status)).take
        env.burstSize).length ≠ 0 := by
      rw [Ne, List.length_eq_zero]
      exact hactive
    omega

/-- Witness for the reset theorem: a mixed grid with `running` still set
is reset to all-idle with ids preserved, and the next run launches. -/
theorem c10_reset_tiles_witness :
    (resetTiles mixedRunningState).tiles.map Tile.id =
      mixedRunningState.tiles.map Tile.id ∧
    (resetTiles mixedRunningState).tiles.length = mixedRunningState.tiles.length ∧
    (∀ t ∈ (resetTiles mixedRunningState).tiles, t.status = TileStatus.idle) ∧
    (resetTiles mixedRunningState).running = false ∧
    (runAll (resetTiles mixedRunningState) batchEnv42 (fun _ => 1)).launches ≠ [] := by
  have h := c10_reset_tiles mixedRunningState batchEnv42 (fun _ => 1)
  exact ⟨h.1, h.2.1, h.2.2.1, h.2.2.2.1, h.2.2.2.2 (by decide) (by decide)⟩

/-- Claim C5: in batch mode with the nonce read available, the i-th
launched worker receives explicit nonce `startNonce + i`
(page.tsx lines 1004-1019), the explicit nonces of a batch are pairwise
distinct, and every launched worker's first submission call carries
exactly the nonce it was launched with (page.tsx lines 712-719). -/
theorem c5_nonce_assignment (st : GridState) (env : RunAllEnv) (prog : Nat → Nat)
    (startNonce : Nat)
    (hrun : st.running = false)
    (hseq : env.isSequential = false)
    (hcli : env.haveClientAndAddress = true)
    (hn : env.getTransactionCount = .ok startNonce)
    (hid : ∃ t ∈ st.tiles, isIdle t.status = true)
    (hb : 1 ≤ env.burstSize) :
    (runAll st env prog).launches.map Launch.explicitNonce =
      (List.range (runAll st env prog).launches.length).map (fun i => some (startNonce + i)) ∧
    ((runAll st env prog).launches.map Launch.explicitNonce).Nodup ∧
    ∀ L ∈ (runAll st env prog).launches,
      ((runOne (env.worker L.tileId) L.explicitNonce).submits.head?).map SubmitCall.nonce =
        some L.explicitNonce := by
  obtain ⟨t0, ht0, hidle0⟩ := hid
  have hfilter : st.tiles.filter (fun t => isIdle t.status) ≠ [] := by
    rw [Ne, List.filter_eq_nil_iff]
    intro hnone
    exact absurd hidle0 (hnone t0 ht0)
  have hactive : ((st.tiles.filter (fun t => isIdle t.status)).take env.burstSize) ≠ [] := by
    rw [Ne, List.take_eq_nil_iff]
    rintro (h0 | h0)
    · omega
    · exact hfilter h0
  have hempty : (((st.tiles.filter (fun t => isIdle t.status)).take env.burstSize)).isEmpty
      = false := by
    rw [Bool.eq_false_iff, Ne, List.isEmpty_iff]
    exact hactive
  have hres : (runAll st env prog).launches =
      (List.range (((st.tiles.filter (fun t => isIdle t.status)).take env.burstSize).map
          Tile.id).length).map
        (fun i =>
          { tileId := (((st.tiles.filter (fun t => isIdle t.status)).take env.burstSize).map
              Tile.id).getD i 0,
            explicitNonce := some (startNonce + i), awaited := true }) := by
    rw [runAll]
    simp only [hrun, Bool.false_eq_true, if_false, hempty, processQueue, hseq, hcli, hn,
      if_true]
  constructor
  · rw [hres]
    simp [List.map_map, Function.comp]
  constructor
  · rw [hres]
    simp only [List.map_map]
    have hinj : Function.Injective (fun i => some (startNonce + i) : Nat → Option Nat) := by
      intro a b hab
      simpa using hab
    have : ((fun L => Launch.explicitNonce L) ∘ fun i =>
        Launch.mk ((((st.tiles.filter (fun t => isIdle t.status)).take env.burstSize).map
          Tile.id).getD i 0) (some (startNonce + i)) true) =
        (fun i => some (startNonce + i)) := rfl
    rw [this]
    exact (List.nodup_range _).map hinj
  · intro L _
    exact runOne_first_nonce (env.worker L.tileId) L.explicitNonce

/-- Witness: base nonce 42 with three idle tiles yields launch nonces
42, 43, 44 in launch order, pairwise distinct. -/
theorem c5_nonce_assignment_witness :
    (runAll threeIdleState batchEnv42 (fun _ => 1)).launches.map Launch.explicitNonce =
      [some 42, some 43, some 44] ∧
    ((runAll threeIdleState batchEnv42 (fun _ => 1)).launches.map Launch.explicitNonce).Nodup := by
  have h := c5_nonce_assignment threeIdleState batchEnv42 (fun _ => 1) 42 rfl rfl rfl rfl
    ⟨{ id := 0, status := .idle }, by decide, rfl⟩ (by decide)
  exact ⟨by decide, h.2.1⟩

/-- Claim C6: on a submission error whose message contains "nonce"
(page.tsx lines 821-859), the worker takes a 200-500 ms randomized
backoff and retries exactly once without an explicit nonce, reaching a
terminal state (a retry failure ends `failed` with no further attempt);
a submission error not containing "nonce" ends `failed` immediately
with a single submission call and no backoff. -/
theorem c6_retry_policy (env : WorkerEnv) (nonce : Option Nat) (m : String)
    (hm : env.submit = .error m) :
    (includesStr m "nonce" = true →
      (runOne env nonce).submits.map SubmitCall.nonce = [nonce, none] ∧
      (runOne env nonce).retryBackoffMs = some (200 + 300 * env.backoffRand) ∧
      (∀ b, (runOne env nonce).retryBackoffMs = some b →
        0 ≤ env.backoffRand → env.backoffRand < 1 → 200 ≤ b ∧ b < 500) ∧
      isTerminal (runOne env nonce).final = true ∧
      (∀ m2, env.retrySubmit = .error m2 →
        (runOne env nonce).final = .failed ("Retry failed: " ++ m2))) ∧
    (includesStr m "nonce" = false →
      (runOne env nonce).submits.map SubmitCall.nonce = [nonce] ∧
      (runOne env nonce).final = .failed m ∧
      (runOne env nonce).retryBackoffMs = none) := by
  have hbounds : ∀ b : ℚ, b = 200 + 300 * env.backoffRand →
      0 ≤ env.backoffRand → env.backoffRand < 1 → 200 ≤ b ∧ b < 500 := by
    intro b hb h0 h1
    subst hb
    constructor
    · have h2 : (0 : ℚ) ≤ 300 * env.backoffRand := by positivity
      linarith
    · have h2 : 300 * env.backoffRand < 300 * 1 := by
        have h3 : (0 : ℚ) < 300 := by norm_num
        exact mul_lt_mul_of_pos_left h1 h3
      linarith
  constructor
  · intro hin
    rcases hr : env.retrySubmit with m2 | h2
    · refine ⟨?_, ?_, ?_, ?_, ?_⟩
      · simp [runOne, runOneCatch, hm, hr, hin]
      · simp [runOne, runOneCatch, hm, hr, hin]
      · intro b hb h0 h1
        have hb2 : b = 200 + 300 * env.backoffRand := by
          simp [runOne, runOneCatch, hm, hr, hin] at hb
          linarith [hb]
        exact hbounds b hb2 h0 h1
      · simp [runOne, runOneCatch, hm, hr, hin, RunOneResult.final, lastStatus, isTerminal]
      · intro m2x hm2
        injection hm2 with hmx
        subst hmx
        simp [runOne, runOneCatch, hm, hr, hin, RunOneResult.final, lastStatus]
    · refine ⟨?_, ?_, ?_, ?_, ?_⟩
      · simp [runOne, runOneCatch, hm, hr, hin]
      · simp [runOne, runOneCatch, hm, hr, hin]
      · intro b hb h0 h1
        have hb2 : b = 200 + 300 * env.backoffRand := by
          simp [runOne, runOneCatch, hm, hr, hin] at hb
          linarith [hb]
        exact hbounds b hb2 h0 h1
      · simp [runOne, runOneCatch, hm, hr, hin, RunOneResult.final, lastStatus, isTerminal]
      · intro m2x hm2
        cases hm2
  · intro hnot
    have hntl := includesStr_too_low_false m hnot
    refine ⟨?_, ?_, ?_⟩ <;>
      simp [runOne, runOneCatch, hm, hnot, hntl, RunOneResult.final, lastStatus]

/-- Witness for the retry policy: a nonce conflict with a failing retry
issues exactly two submission calls (the second without a nonce), takes
a 350 ms backoff and ends `failed`. -/
theorem c6_retry_policy_witness :
    (runOne retryFailWorker (some 9)).submits.map SubmitCall.nonce = [some 9, none] ∧
    (runOne retryFailWorker (some 9)).final = .failed "Retry failed: still bad" ∧
    (∀ b, (runOne retryFailWorker (some 9)).retryBackoffMs = some b → 200 ≤ b ∧ b < 500) := by
  have h := (c6_retry_policy retryFailWorker (some 9) "nonce too low: expected 5" rfl).1
    (by decide)
  refine ⟨h.1, h.2.2.2.2 "still bad" rfl, ?_⟩
  intro b hb
  exact h.2.2.1 b hb (by norm_num [retryFailWorker, goodWorker]) (by norm_num [retryFailWorker, goodWorker])

/-- Claim C7: the receipt-polling loop performs at most 60 attempts at a
fixed 500 ms interval (a 30 s ceiling) and terminates; when no receipt
is obtained within the budget, `runOne` performs exactly 60 attempts,
waits 60 * 500 ms, and the tile ends `failed` with the timeout
message. -/
theorem c7_poll_budget :
    (∀ avail, (pollReceipt avail).2.1 ≤ maxAttempts ∧
      (pollReceipt avail).2.2 ≤ maxAttempts * pollIntervalMs) ∧
    (∀ (env : WorkerEnv) (nonce : Option Nat) (h : String),
      env.submit = .ok h → h ≠ "" → env.publicClientAvailable = true →
      (pollReceipt env.receiptFoundAt).1 = none →
      includesStr (timeoutMsg h) "nonce" = false →
      (runOne env nonce).final = .failed (timeoutMsg h) ∧
      (runOne env nonce).pollAttempts = maxAttempts ∧
      (runOne env nonce).pollWaitMs = maxAttempts * pollIntervalMs) := by
  constructor
  · intro avail
    constructor
    · exact pollAux_attempts_le avail maxAttempts 1
    · exact pollAux_wait_le avail maxAttempts 1
  · intro env nonce h h1 h2 h3 hmiss hnonce
    have hntl := includesStr_too_low_false _ hnonce
    have hstats := pollAux_none_stats env.receiptFoundAt maxAttempts 1 hmiss
    have hbeq : (h == "") = false := beq_eq_false_iff_ne.mpr h2
    refine ⟨?_, ?_, ?_⟩
    · simp [runOne, runOneCatch, h1, h3, hbeq, hmiss, hnonce, hntl,
        RunOneResult.final, lastStatus]
    · simp only [runOne, runOneCatch, h1, h3, hbeq, hmiss, hnonce, hntl]
      simp [hnonce, hntl]
      exact hstats.1
    · simp only [runOne, runOneCatch, h1, h3, hbeq, hmiss, hnonce, hntl]
      simp [hnonce, hntl]
      exact hstats.2

/-- Witness for the polling budget at a concrete never-mined worker. -/
theorem c7_poll_budget_witness :
    (runOne timeoutWorker none).final = .failed (timeoutMsg "0xCC") ∧
    (runOne timeoutWorker none).pollAttempts = 60 ∧
    (runOne timeoutWorker none).pollWaitMs = 30000 ∧
    (pollReceipt none).2.1 ≤ 60 := by
  have h := c7_poll_budget.2 timeoutWorker none "0xCC" rfl (by decide) rfl (by decide)
    (by decide)
  exact ⟨h.1, h.2.1, h.2.2, (c7_poll_budget.1 none).1⟩

/-- Claim C8, counterexample: the fresh batch selected by the auto-reset
is not "the same size as the previous one".  With three tiles and burst
size 2, a run from a state with one idle tile launches a batch of size
1 and leaves all tiles mined; the next run auto-resets and launches a
batch of size 2 = min(burstSize, tile count) ≠ 1. -/
theorem c8_batch_size_counterexample :
    (runAll partialMinedState batchEnv7 (fun _ => 1)).launches.length = 1 ∧
    (runAll partialMinedState batchEnv7 (fun _ => 1)).autoReset = false ∧
    (runAll partialMinedState batchEnv7 (fun _ => 1)).state.tiles.all
      (fun t => isMinedStatus t.status) = true ∧
    (runAll (runAll partialMinedState batchEnv7 (fun _ => 1)).state batchEnv7
      (fun _ => 1)).autoReset = true ∧
    (runAll (runAll partialMinedState batchEnv7 (fun _ => 1)).state batchEnv7
      (fun _ => 1)).launches.length = 2 := by
  decide

/-- Claim C8, amended: if `runAll` is invoked in batch mode with the
nonce read available when no tile is idle and every tile is mined (and
the grid is nonempty with positional ids), then every tile is reset to
`idle` before the workers launch, and a fresh batch of
`min(burstSize, tile count)` tiles with ids `0..k-1` is selected and
launched: afterwards each selected tile carries exclusively its new
worker's terminal status and every non-selected tile is `idle` — no
tile retains stale mined data. -/
theorem c8_auto_recycle (st : GridState) (env : RunAllEnv) (prog : Nat → Nat) (n0 : Nat)
    (hrun : st.running = false)
    (hne : st.tiles ≠ [])
    (hmined : ∀ t ∈ st.tiles, isMinedStatus t.status = true)
    (hpos : st.tiles.map Tile.id = List.range st.tiles.length)
    (hseq : env.isSequential = false)
    (hcli : env.haveClientAndAddress = true)
    (hn : env.getTransactionCount = .ok n0) :
    (runAll st env prog).autoReset = true ∧
    (runAll st env prog).launches =
      (List.range (min env.burstSize st.tiles.length)).map
        (fun i => { tileId := i, explicitNonce := some (n0 + i), awaited := true }) ∧
    (runAll st env prog).state.tiles =
      (List.range st.tiles.length).map
        (fun i => Tile.mk i
          (if i < min env.burstSize st.tiles.length
           then (runOne (env.worker i) (some (n0 + i))).final
           else TileStatus.idle)) ∧
    (runAll st env prog).state.running = false := by
  have hfilter : st.tiles.filter (fun t => isIdle t.status) = [] := by
    rw [List.filter_eq_nil_iff]
    intro t ht
    have hm := hmined t ht
    cases hst : t.status <;> simp_all [isMinedStatus, isIdle]
  have hall : st.tiles.all (fun t => isMinedStatus t.status) = true :=
    List.all_eq_true.mpr hmined
  have hlen : 0 < st.tiles.length := List.length_pos.mpr hne
  have hreset := reset_mapRange st.tiles hpos
  have hfold : (List.range (min env.burstSize st.tiles.length)).foldl
      (fun ts i => applyFinal ts env
        ((List.range (min env.burstSize st.tiles.length)).getD i 0) (some (n0 + i)))
      ((List.range st.tiles.length).map (fun i => Tile.mk i TileStatus.idle))
      = (List.range st.tiles.length).map
          (fun i => Tile.mk i
            (if i < min env.burstSize st.tiles.length
             then (runOne (env.worker i) (some (n0 + i))).final
             else TileStatus.idle)) := by
    rw [List.foldl_ext _ (fun ts i => applyFinal ts env i (some (n0 + i)))]
    · exact foldl_applyFinal env n0 st.tiles.length (min env.burstSize st.tiles.length)
    · intro ts i hi
      rw [range_getD (List.mem_range.mp hi)]
  have hlaunch : (List.range (min env.burstSize st.tiles.length)).map (fun i =>
        Launch.mk ((List.range (min env.burstSize st.tiles.length)).getD i 0)
          (some (n0 + i)) true)
      = (List.range (min env.burstSize st.tiles.length)).map
          (fun i => Launch.mk i (some (n0 + i)) true) := by
    apply List.map_congr_left
    intro i hi
    rw [range_getD (List.mem_range.mp hi)]
  have hmain : runAll st env prog = RunAllResult.mk
      (GridState.mk
        (List.map
          (fun i => Tile.mk i
            (if i < min env.burstSize st.tiles.length
             then (runOne (env.worker i) (some (n0 + i))).final
             else TileStatus.idle))
          (List.range st.tiles.length))
        false)
      (List.map (fun i => Launch.mk i (some (n0 + i)) true)
        (List.range (min env.burstSize st.tiles.length)))
      true := by
    rw [runAll]
    simp only [hrun, Bool.false_eq_true, if_false, hfilter, List.take_nil, List.isEmpty_nil,
      if_true, hall, Bool.true_and, decide_eq_true hlen, processQueue, hseq, hcli, hn,
      List.length_range]
    rw [hreset, hfold, hlaunch]
  rw [hmain]
  exact ⟨rfl, rfl, rfl, rfl⟩

/-- Witness for the amended auto-recycle theorem: two mined tiles, burst
size 2, base nonce 7. -/
theorem c8_auto_recycle_witness :
    (runAll twoMinedState batchEnv7 (fun _ => 1)).autoReset = true ∧
    (runAll twoMinedState batchEnv7 (fun _ => 1)).launches =
      (List.range (min batchEnv7.burstSize twoMinedState.tiles.length)).map
        (fun i => { tileId := i, explicitNonce := some (7 + i), awaited := true }) ∧
    (runAll twoMinedState batchEnv7 (fun _ => 1)).state.tiles =
      (List.range twoMinedState.tiles.length).map
        (fun i => Tile.mk i
          (if i < min batchEnv7.burstSize twoMinedState.tiles.length
           then (runOne (batchEnv7.worker i) (some (7 + i))).final
           else TileStatus.idle)) ∧
    (runAll twoMinedState batchEnv7 (fun _ => 1)).state.running = false :=
  c8_auto_recycle twoMinedState batchEnv7 (fun _ => 1) 7 rfl (by decide) (by decide)
    (by decide) rfl rfl rfl
